import Mathlib

/-!
Verification of the POD (Plan of Day) Streamlit dashboard (`pod_app.py`).

The app keeps three flat tables per calendar date — Activities, Manpower,
Resources — persisted as one CSV file per (table, date) pair. We embed the
tables as lists of association-list rows (column name to cell), the file
system as a map from path strings to stored tables, and the app's helpers
(`_date_key`, `_path`, `load_or_seed`, `persist`, the Quick Add form, the
dashboard metrics and the resource overbooking check) as Lean functions
translated from the Python source. The alert/EOD reconciliation engine of
the specification has no code in the repository snapshot; it is modelled
from the spec where a claim needs it.
-/

namespace POD

/-- A table cell: pandas cells here are either strings or numbers
(ints/floats are modelled as rationals). -/
inductive Cell where
  | str (s : String)
  | num (q : ℚ)
deriving DecidableEq

/-- A row: an ordered association list from column name to cell,
mirroring a pandas row restricted to its columns. -/
abbrev Row := List (String × Cell)

/-- A data frame: an ordered column list plus rows. -/
structure DF where
  cols : List String
  rows : List Row
deriving DecidableEq

/-- `df.reindex(columns=cols, fill_value=fill)`: keep exactly `cols`, in
order, taking each row's existing value where the column is present and
`fill` where it is missing. -/
def reindex (df : DF) (cols : List String) (fill : Cell) : DF :=
  { cols := cols
    rows := df.rows.map (fun r => cols.map (fun c => (c, (List.lookup c r).getD fill))) }

/-- The file system: a map from path to the stored table (CSV contents are
modelled at table granularity). `none` = no file at that path. -/
def Store := String → Option DF

/-- Writing one file: `df.to_csv(path)` replaces whatever was at `path`. -/
def writeFile (store : Store) (pathStr : String) (df : DF) : Store :=
  fun p => if p = pathStr then some df else store p

/-- A calendar date as used by `datetime.date`. -/
structure PDate where
  year : ℕ
  month : ℕ
  day : ℕ
deriving DecidableEq

/-- Python `date` objects are always in-range. -/
def ValidDate (d : PDate) : Prop :=
  1 ≤ d.year ∧ d.year ≤ 9999 ∧ 1 ≤ d.month ∧ d.month ≤ 12 ∧ 1 ≤ d.day ∧ d.day ≤ 31

instance (d : PDate) : Decidable (ValidDate d) := by
  unfold ValidDate; infer_instance

/-- The decimal digit character for `k % 10`, as produced by `strftime`
zero-padded fields. -/
def digitChar (k : ℕ) : Char := Char.ofNat (48 + k % 10)

/-- Zero-padded 4-digit decimal rendering (`%Y` for years up to 9999). -/
def pad4 (n : ℕ) : List Char :=
  [digitChar (n / 1000), digitChar (n / 100), digitChar (n / 10), digitChar n]

/-- Zero-padded 2-digit decimal rendering (`%m`, `%d`, `%H`, `%M`). -/
def pad2 (n : ℕ) : List Char := [digitChar (n / 10), digitChar n]

/-- `_date_key(d) = d.strftime("%Y-%m-%d")`. -/
def date_key (d : PDate) : String :=
  String.mk (pad4 d.year ++ '-' :: pad2 d.month ++ '-' :: pad2 d.day)

/-- `DATA_DIR = "data"`. -/
def DATA_DIR : String := "data"

/-- `_path(prefix, day) = os.path.join(DATA_DIR, f"{prefix}_{_date_key(day)}.csv")`. -/
def _path (pfx : String) (day : PDate) : String :=
  DATA_DIR ++ "/" ++ pfx ++ "_" ++ date_key day ++ ".csv"

/-- The canonical Activities schema (`COLUMNS_ACT`). -/
def COLUMNS_ACT : List String :=
  ["Activity Name", "Location", "Assigned Team", "Start Time", "End Time",
   "Priority", "Required Tools", "Notes", "Status", "Progress %", "Hours"]

/-- The canonical Manpower schema (`COLUMNS_MP`). -/
def COLUMNS_MP : List String := ["Name", "Role", "Team"]

/-- The canonical Resources schema (`COLUMNS_RES`). -/
def COLUMNS_RES : List String := ["Resource", "Type", "Assigned To"]

/-- `DEFAULT_ACTIVITIES`: the seeded sample activity row. -/
def DEFAULT_ACTIVITIES : DF :=
  { cols := COLUMNS_ACT
    rows := [[("Activity Name", Cell.str "String testing – Block A"),
              ("Location", Cell.str "Block A / Array 12"),
              ("Assigned Team", Cell.str "Team Alpha"),
              ("Start Time", Cell.str "09:00"),
              ("End Time", Cell.str "12:30"),
              ("Priority", Cell.str "High"),
              ("Required Tools", Cell.str "Clamp meter, IR camera"),
              ("Notes", Cell.str "Focus on low-current strings"),
              ("Status", Cell.str "Planned"),
              ("Progress %", Cell.num 0),
              ("Hours", Cell.num (7/2))]] }

/-- `DEFAULT_MANPOWER`: the three seeded manpower rows. -/
def DEFAULT_MANPOWER : DF :=
  { cols := COLUMNS_MP
    rows := [[("Name", Cell.str "Ravi Kumar"), ("Role", Cell.str "Technician"), ("Team", Cell.str "Team Alpha")],
             [("Name", Cell.str "Nisha Patel"), ("Role", Cell.str "Engineer"), ("Team", Cell.str "Team Alpha")],
             [("Name", Cell.str "Amit Singh"), ("Role", Cell.str "Supervisor"), ("Team", Cell.str "Team Beta")]] }

/-- `DEFAULT_RESOURCES`: the two seeded resource rows. -/
def DEFAULT_RESOURCES : DF :=
  { cols := COLUMNS_RES
    rows := [[("Resource", Cell.str "IR camera #2"), ("Type", Cell.str "Equipment"),
              ("Assigned To", Cell.str "String testing – Block A")],
             [("Resource", Cell.str "Pick-up #7"), ("Type", Cell.str "Vehicle"),
              ("Assigned To", Cell.str "String testing – Block A")]] }

/-- The empty-string fill value used by `reindex(..., fill_value="")`. -/
def fillEmpty : Cell := Cell.str ""

/-- `load_or_seed(day)`: read each table's per-date CSV if it exists, else
seed the defaults; then reindex every table to its canonical columns with
fill value `""`. -/
def load_or_seed (store : Store) (day : PDate) : DF × DF × DF :=
  let activities := (store (_path "activities" day)).getD DEFAULT_ACTIVITIES
  let manpower := (store (_path "manpower" day)).getD DEFAULT_MANPOWER
  let resources := (store (_path "resources" day)).getD DEFAULT_RESOURCES
  (reindex activities COLUMNS_ACT fillEmpty,
   reindex manpower COLUMNS_MP fillEmpty,
   reindex resources COLUMNS_RES fillEmpty)

/-- The sequence of file writes `persist` performs, in program order:
three separate `to_csv` calls, each directly to its final per-date path. -/
def persistWrites (day : PDate) (activities manpower resources : DF) : List (String × DF) :=
  [(_path "activities" day, activities),
   (_path "manpower" day, manpower),
   (_path "resources" day, resources)]

/-- Apply a list of file writes to the store, in order. -/
def applyWrites (store : Store) (ws : List (String × DF)) : Store :=
  ws.foldl (fun s w => writeFile s w.1 w.2) store

/-- `persist(day, activities, manpower, resources)`: the three sequential
`to_csv` writes. -/
def persist (store : Store) (day : PDate) (activities manpower resources : DF) : Store :=
  applyWrites store (persistWrites day activities manpower resources)

/-! ### Dashboard metrics (Dashboard and Reports pages share these formulas) -/

/-- `total_acts = len(activities)`. -/
def total_acts (activities : DF) : ℕ := activities.rows.length

/-- `total_mp = len(manpower)`. -/
def total_mp (manpower : DF) : ℕ := manpower.rows.length

/-- The rows matched by `activities.query("Status=='Completed'")`. -/
def completedActs (activities : DF) : List Row :=
  activities.rows.filter (fun r => List.lookup "Status" r = some (Cell.str "Completed"))

/-- A row's contribution to an `['Hours'].fillna(0).sum()`: its numeric
Hours value, or 0 when the cell is missing or non-numeric. -/
def hoursVal (r : Row) : ℚ :=
  match List.lookup "Hours" r with
  | some (Cell.num q) => q
  | _ => 0

/-- Python 3 `round` on an integer argument: round-half-even of `n / d`
(for `d > 0`), stated on naturals. -/
def pyRoundDiv (n d : ℕ) : ℕ :=
  let q := n / d
  let r := n % d
  if 2 * r < d then q
  else if d < 2 * r then q + 1
  else if q % 2 = 0 then q else q + 1

/-- Python 3 `round(x, 2)` on a (non-negative) rational: round-half-even of
`100 * x`, divided back by 100. -/
def pyRound2 (x : ℚ) : ℚ :=
  (pyRoundDiv (100 * x.num).toNat x.den : ℚ) / 100

/-- `planned_hours = round(activities['Hours'].fillna(0).sum(), 2)`. -/
def planned_hours (activities : DF) : ℚ :=
  pyRound2 ((activities.rows.map hoursVal).sum)

/-- `completed_hours = round(activities.query("Status=='Completed'")['Hours'].fillna(0).sum(), 2)`. -/
def completed_hours (activities : DF) : ℚ :=
  pyRound2 (((completedActs activities).map hoursVal).sum)

/-- `progress = 0 if total_acts==0 else int(100*len(completed)/total_acts)`:
Python `int()` truncates, which on these non-negative values is floor, i.e.
natural division. -/
def progress (activities : DF) : ℕ :=
  if total_acts activities = 0 then 0
  else 100 * (completedActs activities).length / total_acts activities

/-- `pct_prog` on the Reports page: the same formula as `progress`. -/
def pct_prog (activities : DF) : ℕ :=
  if total_acts activities = 0 then 0
  else 100 * (completedActs activities).length / total_acts activities

/-! ### Resource overbooking check -/

/-- `res_edit.groupby('Resource')['Assigned To'].nunique()` evaluated at one
resource: the number of distinct (present) `Assigned To` values among the
rows whose `Resource` equals `res`. -/
def overbook (resources : DF) (res : Cell) : ℕ :=
  (((resources.rows.filter (fun r => List.lookup "Resource" r = some res)).filterMap
      (fun r => List.lookup "Assigned To" r)).dedup).length

/-- The overbooking flag: `overbook[overbook > 1]` keeps exactly the
resources whose distinct-assignment count exceeds 1. -/
def overbooked (resources : DF) (res : Cell) : Bool :=
  1 < overbook resources res

/-! ### Quick Add Activity form -/

/-- A wall-clock time as returned by `st.time_input` (minute granularity). -/
structure TimeHM where
  hour : ℕ
  minute : ℕ
deriving DecidableEq

/-- Times on a 24-hour clock. -/
def ValidTime (t : TimeHM) : Prop := t.hour < 24 ∧ t.minute < 60

instance (t : TimeHM) : Decidable (ValidTime t) := by
  unfold ValidTime; infer_instance

/-- Seconds since midnight of a `time`. -/
def secondsOfDay (t : TimeHM) : ℕ := 3600 * t.hour + 60 * t.minute

/-- `t.strftime('%H:%M')`. -/
def fmtHM (t : TimeHM) : String :=
  String.mk (pad2 t.hour ++ ':' :: pad2 t.minute)

/-- `(datetime.combine(today, qa_et) - datetime.combine(today, qa_st)).seconds`:
`timedelta.seconds` is always in `[0, 86400)`, so the difference wraps
modulo 24 hours when the end time is at or before the start time. -/
def qa_seconds (qa_st qa_et : TimeHM) : ℕ :=
  (secondsOfDay qa_et + 86400 - secondsOfDay qa_st) % 86400

/-- The Hours field in hundredths: `round(seconds/3600, 2)` scaled by 100,
i.e. round-half-even of `seconds*100/3600`. -/
def qa_hours100 (qa_st qa_et : TimeHM) : ℕ :=
  pyRoundDiv (qa_seconds qa_st qa_et * 100) 3600

/-- The Hours field of the Quick Add row: `round(delta.seconds/3600, 2)`. -/
def qa_hours (qa_st qa_et : TimeHM) : ℚ :=
  (qa_hours100 qa_st qa_et : ℚ) / 100

/-- The `new_row` dict built by the Quick Add form. -/
def quick_row (qa_name qa_loc qa_team : String) (qa_st qa_et : TimeHM)
    (qa_pr qa_tools qa_notes qa_status : String) : Row :=
  [("Activity Name", Cell.str qa_name),
   ("Location", Cell.str qa_loc),
   ("Assigned Team", Cell.str qa_team),
   ("Start Time", Cell.str (fmtHM qa_st)),
   ("End Time", Cell.str (fmtHM qa_et)),
   ("Priority", Cell.str qa_pr),
   ("Required Tools", Cell.str qa_tools),
   ("Notes", Cell.str qa_notes),
   ("Status", Cell.str qa_status),
   ("Progress %", Cell.num 0),
   ("Hours", Cell.num (qa_hours qa_st qa_et))]

/-- The Quick Add submission (`if add_now and qa_name:` then
`pd.concat([activities, pd.DataFrame([new_row])])`): appends the new row
when the name is non-empty, otherwise leaves the table unchanged. -/
def quick_add (activities : DF) (qa_name qa_loc qa_team : String)
    (qa_st qa_et : TimeHM) (qa_pr qa_tools qa_notes qa_status : String) : DF :=
  if qa_name = "" then activities
  else { activities with
         rows := activities.rows ++ [quick_row qa_name qa_loc qa_team qa_st qa_et qa_pr qa_tools qa_notes qa_status] }

/-! ### Alert reconciliation engine

The repository snapshot contains no alert/EOD code; the reconciliation
engine below is modelled from the spec (section 4.3). -/

/-- Modelled from the spec: `AlertRecord` of the reconciliation engine
(no alert table exists in `pod_app.py`); counts are non-negative integers
and `balance` is the stored derived field. -/
structure AlertRecord where
  activityName : String
  totalCount : ℕ
  rectifiedCount : ℕ
  balance : ℤ
deriving DecidableEq

/-- Modelled from the spec: a fresh alert starts fully unrectified. -/
def mkAlert (name : String) (total : ℕ) : AlertRecord :=
  { activityName := name, totalCount := total, rectifiedCount := 0, balance := total }

/-- Modelled from the spec: `addAlert` appends a new alert record, rejecting
a duplicate `activityName` (the unique key within a date). -/
def addAlert (ledger : List AlertRecord) (name : String) (total : ℕ) :
    Except String (List AlertRecord) :=
  if ledger.any (fun a => a.activityName = name) then .error "DuplicateKey"
  else .ok (ledger ++ [mkAlert name total])

/-- Modelled from the spec: `applyEodUpdate` (section 4.3). Rejects an
unknown alert name and an over-resolution (`resolvedToday` beyond the
remaining balance); otherwise sets `rectified = min(rectified + resolvedToday,
total)` and `balance = total - rectified` in place. -/
def applyEodUpdate (ledger : List AlertRecord) (name : String) (resolvedToday : ℕ) :
    Except String (List AlertRecord) :=
  match ledger.find? (fun a => a.activityName = name) with
  | none => .error "UnknownReference"
  | some a =>
      if resolvedToday ≤ a.totalCount - a.rectifiedCount then
        .ok (ledger.map (fun b =>
          if b.activityName = name then
            { b with
              rectifiedCount := min (b.rectifiedCount + resolvedToday) b.totalCount,
              balance := (b.totalCount : ℤ) - (min (b.rectifiedCount + resolvedToday) b.totalCount : ℕ) }
          else b))
      else .error "ValidationError"

/-- Modelled from the spec: the ledger operations a session can perform on
the alert table. -/
inductive AlertOp where
  | add (name : String) (total : ℕ)
  | eod (name : String) (resolvedToday : ℕ)
deriving DecidableEq

/-- Modelled from the spec: one operation applied to the ledger; a rejected
operation (ValidationError / UnknownReference / duplicate key) leaves the
ledger unchanged. -/
def stepAlert (ledger : List AlertRecord) (op : AlertOp) : List AlertRecord :=
  match op with
  | .add name total =>
      match addAlert ledger name total with
      | .ok l => l
      | .error _ => ledger
  | .eod name resolvedToday =>
      match applyEodUpdate ledger name resolvedToday with
      | .ok l => l
      | .error _ => ledger

/-- Modelled from the spec: the ledger after a sequence of operations,
starting from the empty alert table of a fresh date. -/
def runAlerts (ops : List AlertOp) : List AlertRecord :=
  ops.foldl stepAlert []

/-- The alert invariant: `0 ≤ rectifiedCount ≤ totalCount` and
`balance = totalCount − rectifiedCount` (non-negativity is inherent in ℕ). -/
def AlertInv (a : AlertRecord) : Prop :=
  a.rectifiedCount ≤ a.totalCount ∧ a.balance = (a.totalCount : ℤ) - (a.rectifiedCount : ℤ)

instance (a : AlertRecord) : Decidable (AlertInv a) := by
  unfold AlertInv; infer_instance

/-! ### Shared concrete inputs -/

/-- A sample date used by concrete checks. -/
def sampleDay : PDate := ⟨2024, 1, 1⟩

/-- A second, distinct sample date. -/
def sampleDay2 : PDate := ⟨2024, 1, 2⟩

/-- A three-activity table with two completed rows, used to exercise the
progress metric. -/
def actsC6 : DF :=
  ⟨COLUMNS_ACT, [[("Status", Cell.str "Completed")],
                 [("Status", Cell.str "Completed")],
                 [("Status", Cell.str "Planned")]]⟩

/-! ### Helper lemmas -/

/-- A finite list has two distinct elements iff its dedup has length > 1. -/
lemma one_lt_length_dedup_iff {α : Type _} [DecidableEq α] (l : List α) :
    1 < l.dedup.length ↔ ∃ a ∈ l, ∃ b ∈ l, a ≠ b := by
  constructor
  · intro h
    cases hd : l.dedup with
    | nil => rw [hd] at h; simp at h
    | cons x xs =>
      cases hxs : xs with
      | nil => rw [hd, hxs] at h; simp at h
      | cons y t =>
        have hnd : (x :: y :: t).Nodup := by rw [← hxs, ← hd]; exact l.nodup_dedup
        have hxy : x ≠ y := by
          obtain ⟨hx, _⟩ := List.nodup_cons.mp hnd
          intro he
          exact hx (he ▸ List.mem_cons_self y t)
        have hx : x ∈ l := List.mem_dedup.mp (by rw [hd]; exact List.mem_cons_self _ _)
        have hy : y ∈ l := List.mem_dedup.mp
          (by rw [hd, hxs]; exact List.mem_cons_of_mem _ (List.mem_cons_self _ _))
        exact ⟨x, hx, y, hy, hxy⟩
  · rintro ⟨a, ha, b, hb, hne⟩
    have ha' : a ∈ l.dedup := List.mem_dedup.mpr ha
    have hb' : b ∈ l.dedup := List.mem_dedup.mpr hb
    by_contra hlen
    push_neg at hlen
    cases hd : l.dedup with
    | nil => rw [hd] at ha'; simp at ha'
    | cons x xs =>
      cases hxs : xs with
      | nil =>
        rw [hd, hxs] at ha' hb'
        simp at ha' hb'
        exact hne (ha'.trans hb'.symm)
      | cons y t => rw [hd, hxs] at hlen; simp at hlen

/-! ### C1: the alert ledger invariant -/

/-- One reconciliation step preserves the alert invariant. -/
lemma stepAlert_inv (ledger : List AlertRecord) (op : AlertOp)
    (h : ∀ a ∈ ledger, AlertInv a) : ∀ a ∈ stepAlert ledger op, AlertInv a := by
  intro a ha
  cases op with
  | add name total =>
    by_cases hdup : ledger.any (fun b => b.activityName = name)
    · simp only [stepAlert, addAlert, if_pos hdup] at ha
      exact h a ha
    · simp only [stepAlert, addAlert, if_neg hdup] at ha
      rcases List.mem_append.mp ha with hmem | hmem
      · exact h a hmem
      · have : a = mkAlert name total := by simpa using hmem
        subst this
        exact ⟨Nat.zero_le _, by simp [mkAlert]⟩
  | eod name resolvedToday =>
    cases hf : ledger.find? (fun b => b.activityName = name) with
    | none =>
      simp only [stepAlert, applyEodUpdate, hf] at ha
      exact h a ha
    | some rec0 =>
      by_cases hle : resolvedToday ≤ rec0.totalCount - rec0.rectifiedCount
      · simp only [stepAlert, applyEodUpdate, hf, if_pos hle] at ha
        obtain ⟨b, hb, rfl⟩ := List.mem_map.mp ha
        by_cases hbn : b.activityName = name
        · simp only [if_pos hbn]
          exact ⟨min_le_right _ _, by simp [AlertInv]⟩
        · simp only [if_neg hbn]
          exact h b hb
      · simp only [stepAlert, applyEodUpdate, hf, if_neg hle] at ha
        exact h a ha

/-- A whole operation sequence preserves the alert invariant. -/
lemma foldl_stepAlert_inv (ops : List AlertOp) :
    ∀ ledger : List AlertRecord, (∀ a ∈ ledger, AlertInv a) →
      ∀ a ∈ ops.foldl stepAlert ledger, AlertInv a := by
  induction ops with
  | nil => intro ledger h a ha; exact h a ha
  | cons op ops ih =>
    intro ledger h a ha
    exact ih (stepAlert ledger op) (stepAlert_inv ledger op h) a ha

/-- C1: for every AlertRecord in the ledger, at every point during and
after any sequence of operations (every reachable ledger is `runAlerts` of
the prefix of operations performed so far, including `applyEodUpdate`
steps), `0 ≤ rectifiedCount ≤ totalCount` and
`balance = totalCount − rectifiedCount`. -/
theorem alert_ledger_invariant (ops : List AlertOp) (a : AlertRecord)
    (ha : a ∈ runAlerts ops) :
    0 ≤ a.rectifiedCount ∧ a.rectifiedCount ≤ a.totalCount ∧
      a.balance = (a.totalCount : ℤ) - (a.rectifiedCount : ℤ) := by
  have hinv := foldl_stepAlert_inv ops [] (by simp) a ha
  exact ⟨Nat.zero_le _, hinv.1, hinv.2⟩

/-- Concrete alert record reached by the spec's own scenario. -/
def alertWitnessRec : AlertRecord := ⟨"Tracker Fault", 33, 10, 23⟩

/-- The spec scenario's operation sequence. -/
def alertWitnessOps : List AlertOp := [.add "Tracker Fault" 33, .eod "Tracker Fault" 10]

/-- Witness for C1 at the spec's Tracker Fault scenario. -/
theorem alert_ledger_invariant_witness :
    alertWitnessRec ∈ runAlerts alertWitnessOps ∧
      (0 ≤ alertWitnessRec.rectifiedCount ∧
        alertWitnessRec.rectifiedCount ≤ alertWitnessRec.totalCount ∧
        alertWitnessRec.balance = (alertWitnessRec.totalCount : ℤ) - (alertWitnessRec.rectifiedCount : ℤ)) :=
  ⟨by decide, alert_ledger_invariant alertWitnessOps alertWitnessRec (by decide)⟩

/-! ### C6: the progress metric truncates rather than rounds -/

/-- C6 counterexample: on a table of 3 activities with 2 completed, the
code's progress metric is 66 (truncation) while
`round(100 × completedActivities / totalActivities)` is 67. -/
theorem progress_not_round :
    (progress actsC6 : ℤ) ≠
      round ((100 * ((completedActs actsC6).length : ℚ)) / (total_acts actsC6 : ℚ)) := by
  have h1 : progress actsC6 = 66 := by decide
  have h2 : (completedActs actsC6).length = 2 := by decide
  have h3 : total_acts actsC6 = 3 := by decide
  rw [h1, h2, h3]
  norm_num [round_eq]

/-- C6 amended: the progress metric equals
`floor(100 × completedActivities / totalActivities)` (Python `int()`
truncation of a non-negative ratio) when `totalActivities > 0`, and 0 when
`totalActivities = 0`; the Reports-page `pct_prog` computes the same value. -/
theorem progress_floor_spec (df : DF) :
    (total_acts df = 0 → progress df = 0) ∧
    (total_acts df ≠ 0 →
      progress df = ⌊(100 * ((completedActs df).length : ℚ)) / (total_acts df : ℚ)⌋₊) ∧
    pct_prog df = progress df := by
  refine ⟨fun h => by simp [progress, h], fun h => ?_, rfl⟩
  have hc : (100 * ((completedActs df).length : ℚ)) = ((100 * (completedActs df).length : ℕ) : ℚ) := by
    push_cast
    ring
  rw [hc, Nat.floor_div_nat, Nat.floor_natCast, progress, if_neg h]

/-- Witness for C6's amended theorem at the concrete 3-row table. -/
theorem progress_floor_spec_witness :
    progress actsC6 = ⌊(100 * ((completedActs actsC6).length : ℚ)) / (total_acts actsC6 : ℚ)⌋₊ :=
  (progress_floor_spec actsC6).2.1 (by decide)

/-! ### C7: metrics on empty tables -/

/-- C7: every derived metric (total activities, manpower deployed, planned
hours, completed hours, progress percent) over empty tables is zero — all
the metric functions are total, so no error is possible. -/
theorem metrics_empty_tables_zero (ca cm : List String) :
    total_acts ⟨ca, []⟩ = 0 ∧ total_mp ⟨cm, []⟩ = 0 ∧
      planned_hours ⟨ca, []⟩ = 0 ∧ completed_hours ⟨ca, []⟩ = 0 ∧
      progress ⟨ca, []⟩ = 0 := by
  refine ⟨rfl, rfl, ?_, ?_, rfl⟩ <;>
    norm_num [planned_hours, completed_hours, completedActs, pyRound2, pyRoundDiv]

/-! ### C9: the overbooking check -/

/-- C9: the overbooking check flags a resource iff the resources table
assigns it (in rows whose Resource column is that resource) two different
Assigned To activities. -/
theorem overbooked_iff_multiple_distinct_assignments (resources : DF) (res : Cell) :
    overbooked resources res = true ↔
      ∃ r1 ∈ resources.rows, ∃ r2 ∈ resources.rows,
        List.lookup "Resource" r1 = some res ∧ List.lookup "Resource" r2 = some res ∧
        ∃ a1 a2, List.lookup "Assigned To" r1 = some a1 ∧
          List.lookup "Assigned To" r2 = some a2 ∧ a1 ≠ a2 := by
  rw [overbooked, decide_eq_true_eq, overbook, one_lt_length_dedup_iff]
  constructor
  · rintro ⟨a, ha, b, hb, hab⟩
    obtain ⟨r1, hr1, hg1⟩ := List.mem_filterMap.mp ha
    obtain ⟨r2, hr2, hg2⟩ := List.mem_filterMap.mp hb
    obtain ⟨hr1m, hp1⟩ := List.mem_filter.mp hr1
    obtain ⟨hr2m, hp2⟩ := List.mem_filter.mp hr2
    exact ⟨r1, hr1m, r2, hr2m, by simpa using hp1, by simpa using hp2, a, b, hg1, hg2, hab⟩
  · rintro ⟨r1, hr1, r2, hr2, hp1, hp2, a1, a2, hg1, hg2, hne⟩
    refine ⟨a1, ?_, a2, ?_, hne⟩ <;> rw [List.mem_filterMap]
    · exact ⟨r1, List.mem_filter.mpr ⟨hr1, by simpa using hp1⟩, hg1⟩
    · exact ⟨r2, List.mem_filter.mpr ⟨hr2, by simpa using hp2⟩, hg2⟩

/-! ### Reindex lemmas -/

/-- Looking a column up in a reindexed row finds the column's filled value. -/
lemma lookup_map_self {β : Type _} (cols : List String) (g : String → β) (c : String)
    (hc : c ∈ cols) :
    List.lookup c (cols.map (fun c' => (c', g c'))) = some (g c) := by
  induction cols with
  | nil => simp at hc
  | cons d ds ih =>
    by_cases h : c = d
    · subst h
      simp [List.lookup]
    · rcases List.mem_cons.mp hc with he | hm
      · exact absurd he h
      · have hbe : (c == d) = false := beq_eq_false_iff_ne.mpr h
        simp only [List.lookup, List.map_cons, hbe]
        exact ih hm

/-- Reindexing a row to exactly its own (duplicate-free) column list is the
identity. -/
lemma reindexRow_eq_self (fill : Cell) :
    ∀ (r : Row) (cols : List String), cols.Nodup → r.map Prod.fst = cols →
      cols.map (fun c => (c, (List.lookup c r).getD fill)) = r := by
  intro r
  induction r with
  | nil =>
    intro cols _ h
    simp at h
    subst h
    simp
  | cons kv rs ih =>
    intro cols hnd h
    obtain ⟨k, v⟩ := kv
    subst h
    simp only [List.map_cons] at hnd ⊢
    obtain ⟨hk, hnd'⟩ := List.nodup_cons.mp hnd
    simp only [List.cons.injEq]
    constructor
    · simp [List.lookup]
    · have hcong : (rs.map Prod.fst).map (fun c => (c, (List.lookup c ((k, v) :: rs)).getD fill))
          = (rs.map Prod.fst).map (fun c => (c, (List.lookup c rs).getD fill)) := by
        apply List.map_congr_left
        intro c hcmem
        have hck : c ≠ k := fun he => hk (he ▸ hcmem)
        have hbe : (c == k) = false := beq_eq_false_iff_ne.mpr hck
        simp [List.lookup, hbe]
      rw [hcong]
      exact ih (rs.map Prod.fst) hnd' rfl

/-- A table whose columns are exactly `cols` and whose every row is keyed by
`cols` in order (the shape `to_csv` writes and `read_csv` reads back). -/
def WellFormed (df : DF) (cols : List String) : Prop :=
  df.cols = cols ∧ ∀ r ∈ df.rows, r.map Prod.fst = cols

instance (df : DF) (cols : List String) : Decidable (WellFormed df cols) := by
  unfold WellFormed; infer_instance

/-- Reindexing a well-formed table to its own column list is the identity. -/
lemma reindex_eq_self (df : DF) (cols : List String) (fill : Cell)
    (hnd : cols.Nodup) (h : WellFormed df cols) : reindex df cols fill = df := by
  obtain ⟨hc, hr⟩ := h
  obtain ⟨dcols, drows⟩ := df
  simp only [reindex]
  simp only at hc hr
  subst hc
  refine congrArg (DF.mk dcols) ?_
  have : drows.map (fun r => dcols.map (fun c => (c, (List.lookup c r).getD fill)))
      = drows.map id := by
    apply List.map_congr_left
    intro r hrm
    exact reindexRow_eq_self fill r dcols hnd (hr r hrm)
  rw [this, List.map_id]

/-! ### C2: loading a date with no persisted file -/

/-- C2 counterexample: with no file persisted for the date, `load_or_seed`
returns a non-empty activities table (the seeded default sample row), not
an empty collection. -/
theorem load_missing_not_empty :
    (load_or_seed (fun _ => none) sampleDay).1.rows ≠ [] := by decide

/-- C2 amended: for every date with no persisted file for any of the three
tables, `load_or_seed` returns the seeded default tables (one sample
activity row, three manpower rows, two resource rows), each shaped to its
canonical column list; the function is total, so it never raises. -/
theorem load_missing_seeds_defaults (store : Store) (day : PDate)
    (ha : store (_path "activities" day) = none)
    (hm : store (_path "manpower" day) = none)
    (hr : store (_path "resources" day) = none) :
    load_or_seed store day = (DEFAULT_ACTIVITIES, DEFAULT_MANPOWER, DEFAULT_RESOURCES) ∧
      (load_or_seed store day).1.cols = COLUMNS_ACT ∧
      (load_or_seed store day).2.1.cols = COLUMNS_MP ∧
      (load_or_seed store day).2.2.cols = COLUMNS_RES ∧
      (load_or_seed store day).1.rows.length = 1 ∧
      (load_or_seed store day).2.1.rows.length = 3 ∧
      (load_or_seed store day).2.2.rows.length = 2 := by
  have h : load_or_seed store day = (DEFAULT_ACTIVITIES, DEFAULT_MANPOWER, DEFAULT_RESOURCES) := by
    have hwa : reindex DEFAULT_ACTIVITIES COLUMNS_ACT fillEmpty = DEFAULT_ACTIVITIES :=
      reindex_eq_self _ _ _ (by decide) ⟨rfl, by decide⟩
    have hwm : reindex DEFAULT_MANPOWER COLUMNS_MP fillEmpty = DEFAULT_MANPOWER :=
      reindex_eq_self _ _ _ (by decide) ⟨rfl, by decide⟩
    have hwr : reindex DEFAULT_RESOURCES COLUMNS_RES fillEmpty = DEFAULT_RESOURCES :=
      reindex_eq_self _ _ _ (by decide) ⟨rfl, by decide⟩
    simp only [load_or_seed, ha, hm, hr, Option.getD_none]
    rw [hwa, hwm, hwr]
  rw [h]
  exact ⟨rfl, rfl, rfl, rfl, rfl, rfl, rfl⟩

/-- Witness for C2's amended theorem on the wholly empty store. -/
theorem load_missing_seeds_defaults_witness :
    load_or_seed (fun _ => none) sampleDay = (DEFAULT_ACTIVITIES, DEFAULT_MANPOWER, DEFAULT_RESOURCES) ∧
      (load_or_seed (fun _ => none) sampleDay).1.cols = COLUMNS_ACT ∧
      (load_or_seed (fun _ => none) sampleDay).2.1.cols = COLUMNS_MP ∧
      (load_or_seed (fun _ => none) sampleDay).2.2.cols = COLUMNS_RES ∧
      (load_or_seed (fun _ => none) sampleDay).1.rows.length = 1 ∧
      (load_or_seed (fun _ => none) sampleDay).2.1.rows.length = 3 ∧
      (load_or_seed (fun _ => none) sampleDay).2.2.rows.length = 2 :=
  load_missing_seeds_defaults (fun _ => none) sampleDay rfl rfl rfl

/-! ### C5: backfilling of missing columns -/

/-- An activities table missing the numeric Progress % and Hours columns. -/
def dfC5 : DF := ⟨["Activity Name"], [[("Activity Name", Cell.str "String testing – Block A")]]⟩

/-- A store holding only that narrow activities file for `sampleDay`. -/
def storeC5 : Store := writeFile (fun _ => none) (_path "activities" sampleDay) dfC5

/-- C5 counterexample: loading a persisted activities file that lacks the
numeric "Progress %" column backfills it with the empty string, not with 0. -/
theorem backfill_not_zero_for_counts :
    List.lookup "Progress %" ((load_or_seed storeC5 sampleDay).1.rows.headI)
        = some (Cell.str "") ∧ Cell.str "" ≠ Cell.num 0 := by
  constructor
  · decide
  · decide

/-- Reindexing a stored table keeps its rows one-for-one and fills every
missing column of every row with the fill value. -/
lemma reindex_backfills (df : DF) (cols : List String) (fill : Cell) :
    List.Forall₂ (fun r r' => ∀ c ∈ cols, List.lookup c r = none →
        List.lookup c r' = some fill)
      df.rows (reindex df cols fill).rows := by
  show List.Forall₂ _ df.rows (df.rows.map _)
  rw [List.forall₂_map_right_iff, List.forall₂_same]
  intro r _ c hc hmiss
  rw [lookup_map_self cols _ c hc, hmiss]
  rfl

/-- C5 amended: for every persisted table file — activities, manpower, or
resources — `load_or_seed` keeps the stored rows one-for-one (same count,
in order) and backfills, in every row, each canonical column missing from
the stored row with the single fill value `""` (the empty string), for
numeric count columns and text columns alike. -/
theorem backfill_missing_with_empty_string (store : Store) (day : PDate) :
    (∀ df, store (_path "activities" day) = some df →
      (load_or_seed store day).1.rows.length = df.rows.length ∧
      List.Forall₂ (fun r r' => ∀ c ∈ COLUMNS_ACT, List.lookup c r = none →
          List.lookup c r' = some (Cell.str ""))
        df.rows (load_or_seed store day).1.rows) ∧
    (∀ df, store (_path "manpower" day) = some df →
      (load_or_seed store day).2.1.rows.length = df.rows.length ∧
      List.Forall₂ (fun r r' => ∀ c ∈ COLUMNS_MP, List.lookup c r = none →
          List.lookup c r' = some (Cell.str ""))
        df.rows (load_or_seed store day).2.1.rows) ∧
    (∀ df, store (_path "resources" day) = some df →
      (load_or_seed store day).2.2.rows.length = df.rows.length ∧
      List.Forall₂ (fun r r' => ∀ c ∈ COLUMNS_RES, List.lookup c r = none →
          List.lookup c r' = some (Cell.str ""))
        df.rows (load_or_seed store day).2.2.rows) := by
  refine ⟨fun df hdf => ?_, fun df hdf => ?_, fun df hdf => ?_⟩
  · have hload : (load_or_seed store day).1 = reindex df COLUMNS_ACT fillEmpty := by
      simp only [load_or_seed, hdf, Option.getD_some]
    rw [hload]
    exact ⟨by simp [reindex], reindex_backfills df COLUMNS_ACT fillEmpty⟩
  · have hload : (load_or_seed store day).2.1 = reindex df COLUMNS_MP fillEmpty := by
      simp only [load_or_seed, hdf, Option.getD_some]
    rw [hload]
    exact ⟨by simp [reindex], reindex_backfills df COLUMNS_MP fillEmpty⟩
  · have hload : (load_or_seed store day).2.2 = reindex df COLUMNS_RES fillEmpty := by
      simp only [load_or_seed, hdf, Option.getD_some]
    rw [hload]
    exact ⟨by simp [reindex], reindex_backfills df COLUMNS_RES fillEmpty⟩

/-- A manpower file missing the Role and Team columns. -/
def dfC5mp : DF := ⟨["Name"], [[("Name", Cell.str "Ravi Kumar")]]⟩

/-- A resources file missing the Type and Assigned To columns. -/
def dfC5rs : DF := ⟨["Resource"], [[("Resource", Cell.str "IR camera #2")]]⟩

/-- A store holding narrow (column-missing) files for all three tables. -/
def storeC5all : Store :=
  writeFile (writeFile (writeFile (fun _ => none)
    (_path "activities" sampleDay) dfC5)
    (_path "manpower" sampleDay) dfC5mp)
    (_path "resources" sampleDay) dfC5rs

/-- Witness for C5's amended theorem: all three narrow persisted files. -/
theorem backfill_missing_with_empty_string_witness :
    ((load_or_seed storeC5all sampleDay).1.rows.length = dfC5.rows.length ∧
      List.Forall₂ (fun r r' => ∀ c ∈ COLUMNS_ACT, List.lookup c r = none →
          List.lookup c r' = some (Cell.str ""))
        dfC5.rows (load_or_seed storeC5all sampleDay).1.rows) ∧
    ((load_or_seed storeC5all sampleDay).2.1.rows.length = dfC5mp.rows.length ∧
      List.Forall₂ (fun r r' => ∀ c ∈ COLUMNS_MP, List.lookup c r = none →
          List.lookup c r' = some (Cell.str ""))
        dfC5mp.rows (load_or_seed storeC5all sampleDay).2.1.rows) ∧
    ((load_or_seed storeC5all sampleDay).2.2.rows.length = dfC5rs.rows.length ∧
      List.Forall₂ (fun r r' => ∀ c ∈ COLUMNS_RES, List.lookup c r = none →
          List.lookup c r' = some (Cell.str ""))
        dfC5rs.rows (load_or_seed storeC5all sampleDay).2.2.rows) := by
  have h := backfill_missing_with_empty_string storeC5all sampleDay
  exact ⟨h.1 dfC5 (by decide), h.2.1 dfC5mp (by decide), h.2.2 dfC5rs (by decide)⟩

/-! ### Path and date-key lemmas -/

/-- Strings with equal character data are equal. -/
lemma string_data_inj {s t : String} (h : s.data = t.data) : s = t := by
  cases s
  cases t
  exact congrArg String.mk h

/-- `_date_key` always renders to exactly 10 characters. -/
lemma date_key_length (d : PDate) : (date_key d).length = 10 := rfl

/-- The length of a per-date CSV path is determined by the table prefix. -/
lemma _path_length (pfx : String) (day : PDate) : (_path pfx day).length = pfx.length + 20 := by
  simp only [_path, DATA_DIR, String.length_append, date_key_length]
  have h1 : ("data" : String).length = 4 := rfl
  have h2 : ("/" : String).length = 1 := rfl
  have h3 : ("_" : String).length = 1 := rfl
  have h4 : (".csv" : String).length = 4 := rfl
  omega

/-- Paths for table prefixes of different lengths never collide, on any
pair of dates. -/
lemma _path_ne_of_length_ne (p q : String) (d1 d2 : PDate) (h : p.length ≠ q.length) :
    _path p d1 ≠ _path q d2 := by
  intro he
  have hl := congrArg String.length he
  rw [_path_length, _path_length] at hl
  omega

/-- Equal same-prefix paths force equal date keys. -/
lemma date_key_eq_of_path_eq (p : String) (d1 d2 : PDate)
    (h : _path p d1 = _path p d2) : date_key d1 = date_key d2 := by
  unfold _path at h
  have hd := congrArg String.data h
  simp only [String.data_append] at hd
  exact string_data_inj (List.append_cancel_left (List.append_cancel_right hd))

/-- Decoding a digit character. -/
def charDigit (c : Char) : ℕ := c.toNat - 48

/-- `charDigit` inverts `digitChar`. -/
lemma charDigit_digitChar (k : ℕ) : charDigit (digitChar k) = k % 10 := by
  unfold digitChar charDigit
  have hlt : k % 10 < 10 := Nat.mod_lt _ (by norm_num)
  set m := k % 10 with hm
  interval_cases m <;> decide

/-- Digit characters agree only on congruent digits. -/
lemma digitChar_inj_mod (a b : ℕ) (h : digitChar a = digitChar b) : a % 10 = b % 10 := by
  have h1 := congrArg charDigit h
  rwa [charDigit_digitChar, charDigit_digitChar] at h1

/-- `_date_key` is injective on in-range dates. -/
lemma date_key_inj (d1 d2 : PDate) (h1 : ValidDate d1) (h2 : ValidDate d2)
    (h : date_key d1 = date_key d2) : d1 = d2 := by
  obtain ⟨y1, m1, a1⟩ := d1
  obtain ⟨y2, m2, a2⟩ := d2
  obtain ⟨hy1, hy1', hm1, hm1', ha1, ha1'⟩ := h1
  obtain ⟨hy2, hy2', hm2, hm2', ha2, ha2'⟩ := h2
  have hd := congrArg String.data h
  simp only [date_key, pad4, pad2, List.cons_append, List.nil_append, List.cons.injEq,
    and_true] at hd
  obtain ⟨e1, e2, e3, e4, _, e5, e6, _, e7, e8⟩ := hd
  have q1 := digitChar_inj_mod _ _ e1
  have q2 := digitChar_inj_mod _ _ e2
  have q3 := digitChar_inj_mod _ _ e3
  have q4 := digitChar_inj_mod _ _ e4
  have q5 := digitChar_inj_mod _ _ e5
  have q6 := digitChar_inj_mod _ _ e6
  have q7 := digitChar_inj_mod _ _ e7
  have q8 := digitChar_inj_mod _ _ e8
  simp only at hy1 hy1' hm1 hm1' ha1 ha1' hy2 hy2' hm2 hm2' ha2 ha2'
  simp only [PDate.mk.injEq]
  refine ⟨?_, ?_, ?_⟩ <;> omega

/-! ### C8: distinct dates write to disjoint paths -/

/-- C8: for distinct in-range dates, every per-date table file path of the
first date differs from every per-date table file path of the second (in
particular, per table the date-to-path mapping is injective, so `persist`
for one date never writes to a file of another date). -/
theorem distinct_dates_disjoint_paths (d1 d2 : PDate)
    (h1 : ValidDate d1) (h2 : ValidDate d2) (hne : d1 ≠ d2) (p1 p2 : String)
    (hp1 : p1 ∈ ["activities", "manpower", "resources"])
    (hp2 : p2 ∈ ["activities", "manpower", "resources"]) :
    _path p1 d1 ≠ _path p2 d2 := by
  fin_cases hp1 <;> fin_cases hp2
  all_goals first
    | exact _path_ne_of_length_ne _ _ _ _ (by decide)
    | exact fun he => hne (date_key_inj d1 d2 h1 h2 (date_key_eq_of_path_eq _ _ _ he))

/-- Witness for C8 at two concrete consecutive dates. -/
theorem distinct_dates_disjoint_paths_witness :
    ValidDate sampleDay ∧ ValidDate sampleDay2 ∧ sampleDay ≠ sampleDay2 ∧
      _path "activities" sampleDay ≠ _path "activities" sampleDay2 :=
  ⟨by decide, by decide, by decide,
    distinct_dates_disjoint_paths sampleDay sampleDay2 (by decide) (by decide) (by decide)
      "activities" "activities" (by decide) (by decide)⟩

/-! ### C3: save/load round trip -/

/-- Reading each table back right after `persist` yields the written table:
the three same-date paths are pairwise distinct, so the later writes do not
clobber the earlier ones. -/
lemma persist_apply (store : Store) (day : PDate) (a m r : DF) :
    persist store day a m r (_path "activities" day) = some a ∧
      persist store day a m r (_path "manpower" day) = some m ∧
      persist store day a m r (_path "resources" day) = some r := by
  have ham : _path "activities" day ≠ _path "manpower" day :=
    _path_ne_of_length_ne _ _ _ _ (by decide)
  have har : _path "activities" day ≠ _path "resources" day :=
    _path_ne_of_length_ne _ _ _ _ (by decide)
  have hmr : _path "manpower" day ≠ _path "resources" day :=
    _path_ne_of_length_ne _ _ _ _ (by decide)
  refine ⟨?_, ?_, ?_⟩ <;> simp [persist, persistWrites, applyWrites, writeFile, ham, har, hmr]

/-- C3: `persist(date, T)` followed by `load_or_seed(date)` returns exactly
the persisted tables, for every well-formed table set (tables carrying
their canonical columns). -/
theorem save_load_roundtrip (store : Store) (day : PDate) (a m r : DF)
    (ha : WellFormed a COLUMNS_ACT) (hm : WellFormed m COLUMNS_MP)
    (hr : WellFormed r COLUMNS_RES) :
    load_or_seed (persist store day a m r) day = (a, m, r) := by
  obtain ⟨e1, e2, e3⟩ := persist_apply store day a m r
  simp only [load_or_seed, e1, e2, e3, Option.getD_some]
  rw [reindex_eq_self _ _ _ (by decide) ha, reindex_eq_self _ _ _ (by decide) hm,
    reindex_eq_self _ _ _ (by decide) hr]

/-- Witness for C3 with the seeded default tables on an empty store. -/
theorem save_load_roundtrip_witness :
    WellFormed DEFAULT_ACTIVITIES COLUMNS_ACT ∧ WellFormed DEFAULT_MANPOWER COLUMNS_MP ∧
      WellFormed DEFAULT_RESOURCES COLUMNS_RES ∧
      load_or_seed (persist (fun _ => none) sampleDay DEFAULT_ACTIVITIES DEFAULT_MANPOWER DEFAULT_RESOURCES)
          sampleDay = (DEFAULT_ACTIVITIES, DEFAULT_MANPOWER, DEFAULT_RESOURCES) :=
  ⟨⟨rfl, by decide⟩, ⟨rfl, by decide⟩, ⟨rfl, by decide⟩,
    save_load_roundtrip (fun _ => none) sampleDay _ _ _
      ⟨rfl, by decide⟩ ⟨rfl, by decide⟩ ⟨rfl, by decide⟩⟩

/-! ### C4: persist is not atomic -/

/-- The store with no files at all. -/
def storeEmpty : Store := fun _ => none

/-- C4 counterexample: stopping `persist` after its first write leaves a
store that is neither the original store nor the fully persisted one — the
activities file is updated while the manpower file is not — so the three
`to_csv` calls are not one all-or-nothing unit. -/
theorem persist_not_atomic :
    ¬ (applyWrites storeEmpty
          ((persistWrites sampleDay DEFAULT_ACTIVITIES DEFAULT_MANPOWER DEFAULT_RESOURCES).take 1)
          = storeEmpty ∨
       applyWrites storeEmpty
          ((persistWrites sampleDay DEFAULT_ACTIVITIES DEFAULT_MANPOWER DEFAULT_RESOURCES).take 1)
          = persist storeEmpty sampleDay DEFAULT_ACTIVITIES DEFAULT_MANPOWER DEFAULT_RESOURCES) := by
  have ham : _path "activities" sampleDay ≠ _path "manpower" sampleDay :=
    _path_ne_of_length_ne _ _ _ _ (by decide)
  have hmr : _path "manpower" sampleDay ≠ _path "resources" sampleDay :=
    _path_ne_of_length_ne _ _ _ _ (by decide)
  rintro (h | h)
  · have hc := congrFun h (_path "activities" sampleDay)
    simp [applyWrites, persistWrites, writeFile, storeEmpty] at hc
  · have hc := congrFun h (_path "manpower" sampleDay)
    simp [applyWrites, persistWrites, writeFile, storeEmpty, persist,
      Ne.symm ham, hmr] at hc

/-- C4 amended: `persist` performs exactly three sequential `to_csv`
writes, each directly to its final per-date path (no temporary path, no
rename); the completed sequence stores the three tables and touches no
other path, but the write sequence is not a single all-or-nothing unit. -/
theorem persist_sequential_direct_writes (store : Store) (day : PDate) (a m r : DF) :
    (persistWrites day a m r).map Prod.fst =
        [_path "activities" day, _path "manpower" day, _path "resources" day] ∧
      persist store day a m r = applyWrites store (persistWrites day a m r) ∧
      persist store day a m r (_path "activities" day) = some a ∧
      persist store day a m r (_path "manpower" day) = some m ∧
      persist store day a m r (_path "resources" day) = some r ∧
      (∀ p, p ≠ _path "activities" day → p ≠ _path "manpower" day →
        p ≠ _path "resources" day → persist store day a m r p = store p) := by
  obtain ⟨e1, e2, e3⟩ := persist_apply store day a m r
  refine ⟨rfl, rfl, e1, e2, e3, ?_⟩
  intro p hpa hpm hpr
  simp [persist, persistWrites, applyWrites, writeFile, hpa, hpm, hpr]

/-- Witness for C4's amended theorem: a path belonging to no table is left
untouched by `persist`. -/
theorem persist_sequential_direct_writes_witness :
    persist storeEmpty sampleDay DEFAULT_ACTIVITIES DEFAULT_MANPOWER DEFAULT_RESOURCES "other"
      = storeEmpty "other" :=
  (persist_sequential_direct_writes storeEmpty sampleDay DEFAULT_ACTIVITIES DEFAULT_MANPOWER
      DEFAULT_RESOURCES).2.2.2.2.2 "other" (by decide) (by decide) (by decide)

/-! ### C10: Quick Add hours -/

/-- Round-half-even of `n / d` never exceeds the floor plus one. -/
lemma pyRoundDiv_le (n d : ℕ) : pyRoundDiv n d ≤ n / d + 1 := by
  unfold pyRoundDiv
  dsimp only
  split_ifs <;> omega

/-- For a valid start time, the wrapped duration is a whole number of
minutes: 60 times a minute count below 1440. -/
lemma qa_seconds_eq (qa_st qa_et : TimeHM) (hst : ValidTime qa_st) :
    qa_seconds qa_st qa_et
      = 60 * ((60 * qa_et.hour + qa_et.minute + 1440 - (60 * qa_st.hour + qa_st.minute)) % 1440) := by
  obtain ⟨hh, hm⟩ := hst
  unfold qa_seconds secondsOfDay
  have heq : 3600 * qa_et.hour + 60 * qa_et.minute + 86400 - (3600 * qa_st.hour + 60 * qa_st.minute)
      = 60 * (60 * qa_et.hour + qa_et.minute + 1440 - (60 * qa_st.hour + qa_st.minute)) := by
    omega
  rw [heq, show (86400 : ℕ) = 60 * 1440 from rfl, Nat.mul_mod_mul_left]

/-- The rounded hundredth-hours value stays below 24.00. -/
lemma qa_hours100_lt (qa_st qa_et : TimeHM) (hst : ValidTime qa_st) :
    qa_hours100 qa_st qa_et < 2400 := by
  unfold qa_hours100
  rw [qa_seconds_eq qa_st qa_et hst]
  set k := (60 * qa_et.hour + qa_et.minute + 1440 - (60 * qa_st.hour + qa_st.minute)) % 1440 with hk
  have hmod : (60 * qa_et.hour + qa_et.minute + 1440 - (60 * qa_st.hour + qa_st.minute)) % 1440 < 1440 :=
    Nat.mod_lt _ (by norm_num)
  have hkle : k ≤ 1439 := by omega
  have h1 : pyRoundDiv (60 * k * 100) 3600 ≤ 60 * k * 100 / 3600 + 1 := pyRoundDiv_le _ _
  have h2 : 60 * k * 100 / 3600 ≤ 2398 := by
    have hle : 60 * k * 100 ≤ 8634000 := by omega
    calc 60 * k * 100 / 3600 ≤ 8634000 / 3600 := Nat.div_le_div_right hle
      _ = 2398 := by norm_num
  omega

/-- C10: a Quick Add submission with a non-empty name appends exactly one
row; its Hours field is `round(wrapped_seconds/3600, 2)` where the duration
wraps modulo 24 hours (never negative, never rejected when the end is at or
before the start), is a non-negative multiple of 0.01, and is strictly
below 24. -/
theorem quick_add_hours_bounds (activities : DF) (qa_name qa_loc qa_team : String)
    (qa_st qa_et : TimeHM) (qa_pr qa_tools qa_notes qa_status : String)
    (hst : ValidTime qa_st) (_het : ValidTime qa_et) (hname : qa_name ≠ "") :
    (quick_add activities qa_name qa_loc qa_team qa_st qa_et qa_pr qa_tools qa_notes qa_status).rows
        = activities.rows ++ [quick_row qa_name qa_loc qa_team qa_st qa_et qa_pr qa_tools qa_notes qa_status] ∧
      List.lookup "Hours" (quick_row qa_name qa_loc qa_team qa_st qa_et qa_pr qa_tools qa_notes qa_status)
        = some (Cell.num (qa_hours qa_st qa_et)) ∧
      qa_hours qa_st qa_et
        = (pyRoundDiv (((secondsOfDay qa_et + 86400 - secondsOfDay qa_st) % 86400) * 100) 3600 : ℚ) / 100 ∧
      0 ≤ qa_hours qa_st qa_et ∧ qa_hours qa_st qa_et < 24 ∧
      100 * qa_hours qa_st qa_et = (qa_hours100 qa_st qa_et : ℚ) := by
  refine ⟨?_, ?_, rfl, ?_, ?_, ?_⟩
  · simp [quick_add, hname]
  · rfl
  · unfold qa_hours
    positivity
  · unfold qa_hours
    rw [div_lt_iff₀ (by norm_num : (0 : ℚ) < 100)]
    have hb := qa_hours100_lt qa_st qa_et hst
    calc ((qa_hours100 qa_st qa_et : ℕ) : ℚ) < 2400 := by exact_mod_cast hb
      _ = 24 * 100 := by norm_num
  · unfold qa_hours
    ring

/-- Concrete Quick Add start time (16:00). -/
def qaSt : TimeHM := ⟨16, 0⟩

/-- Concrete Quick Add end time (09:00), before the start: the duration
wraps to 17 hours. -/
def qaEt : TimeHM := ⟨9, 0⟩

/-- Witness for C10 with an end time before the start time. -/
theorem quick_add_hours_bounds_witness :
    ValidTime qaSt ∧ ValidTime qaEt ∧ 0 ≤ qa_hours qaSt qaEt ∧ qa_hours qaSt qaEt < 24 := by
  have h := quick_add_hours_bounds DEFAULT_ACTIVITIES "Night patrol" "Block B" "Team Beta"
    qaSt qaEt "High" "" "" "Planned" (by decide) (by decide) (by decide)
  exact ⟨by decide, by decide, h.2.2.2.1, h.2.2.2.2.1⟩

end POD
